import Mathlib

/-!
Verification of the incus-backup orchestration engine (src/incus-backup.py).

The development shallowly embeds the script's core logic: ISO-8601 timestamp
parsing (`parse_iso_datetime`), snapshot pruning (`prune_old_snapshots`),
snapshot creation with its stateful/stateless handling (`snapshot_vm`),
instance export (`export_vm`), archive pruning (`prune_old_backups`), and the
orchestrating `main` loop (`main_run`).

Strings are modelled as `List Char`.  Python `datetime` values are modelled by
the record `DT`; comparison and `timedelta` subtraction are carried out on the
microsecond timeline via `toMicro` (a strictly monotone embedding of valid
proleptic-Gregorian datetimes, so `datetime` comparisons and `now - timedelta`
agree with integer arithmetic on microseconds).  `datetime.strptime` is
modelled after CPython's `_strptime` implementation: each directive compiles
to a regular-expression fragment (`%Y` is exactly four digits, `%m` is
`1[0-2]|0[1-9]|[1-9]`, and so on), the regex engine returns the first match in
greedy backtracking order, trailing unconverted data is an error, and the
single matched field assignment is then validated by the `datetime`
constructor.
-/

set_option maxRecDepth 4096

/-- Python strings, modelled as lists of characters. -/
abbrev Str := List Char

/-- A Python `datetime.datetime` value (naive, microsecond precision). -/
structure DT where
  year : Nat
  month : Nat
  day : Nat
  hour : Nat
  minute : Nat
  second : Nat
  micro : Nat
deriving DecidableEq

/-- Gregorian leap-year test, as used by `datetime`. -/
def isLeap (y : Nat) : Bool := (y % 4 == 0 && y % 100 != 0) || (y % 400 == 0)

/-- Number of days in a month of a given year. -/
def daysInMonth (y m : Nat) : Nat :=
  if m = 2 then (if isLeap y then 29 else 28)
  else if m = 4 ∨ m = 6 ∨ m = 9 ∨ m = 11 then 30
  else 31

/-- The range checks performed by the `datetime.datetime` constructor
(`MINYEAR = 1`, `MAXYEAR = 9999`); a failing check raises `ValueError`. -/
def validDT (t : DT) : Bool :=
  decide (1 ≤ t.year) && decide (t.year ≤ 9999) &&
  decide (1 ≤ t.month) && decide (t.month ≤ 12) &&
  decide (1 ≤ t.day) && decide (t.day ≤ daysInMonth t.year t.month) &&
  decide (t.hour ≤ 23) && decide (t.minute ≤ 59) && decide (t.second ≤ 59) &&
  decide (t.micro ≤ 999999)

/-- Days from 0000-03-01 to the given civil date (valid for `y ≥ 1`),
the standard era-based conversion for the proleptic Gregorian calendar. -/
def daysFromCivilN (y m d : Nat) : Nat :=
  let ys := if m ≤ 2 then y - 1 else y
  let era := ys / 400
  let yoe := ys % 400
  let mp := if m ≤ 2 then m + 9 else m - 3
  let doy := (153 * mp + 2) / 5 + d - 1
  let doe := yoe * 365 + yoe / 4 - yoe / 100 + doy
  era * 146097 + doe

/-- A `datetime` as microseconds since the Unix epoch.  For valid datetimes
this embedding is strictly monotone in `datetime`'s field-lexicographic
order, so `<` on datetimes and subtraction of a `timedelta` both transport
to plain integer arithmetic here. -/
def toMicro (t : DT) : Int :=
  (((daysFromCivilN t.year t.month t.day : Int) - 719468) * 86400
    + t.hour * 3600 + t.minute * 60 + t.second) * 1000000 + t.micro

/-- Microseconds in one day, the unit of `timedelta(days=1)`. -/
def microsPerDay : Int := 86400000000

/-- Decimal digit test (`[0-9]` in the `_strptime` regexes). -/
def isD (c : Char) : Bool := decide ('0' ≤ c) && decide (c ≤ '9')

/-- Numeric value of a digit character. -/
def digitVal (c : Char) : Nat := c.toNat - 48

/-- The decimal digit characters (used to render zero-padded numbers,
as `strftime` does). -/
def dCh : Nat → Char
  | 0 => '0' | 1 => '1' | 2 => '2' | 3 => '3' | 4 => '4'
  | 5 => '5' | 6 => '6' | 7 => '7' | 8 => '8' | _ => '9'

/-- Two-digit zero-padded rendering (`%m`, `%d`, `%H`, `%M`, `%S`). -/
def pad2 (n : Nat) : Str := [dCh (n / 10 % 10), dCh (n % 10)]

/-- Four-digit zero-padded rendering (`%Y`). -/
def pad4 (n : Nat) : Str :=
  [dCh (n / 1000 % 10), dCh (n / 100 % 10), dCh (n / 10 % 10), dCh (n % 10)]

/-- `strftime("%Y%m%d%H%M%S")`: the run timestamp format of `main`. -/
def format14 (t : DT) : Str :=
  pad4 t.year ++ (pad2 t.month ++ (pad2 t.day ++
    (pad2 t.hour ++ (pad2 t.minute ++ pad2 t.second))))

/-- Decimal value of a digit string, most significant first. -/
def digitsVal (l : Str) : Nat := l.foldl (fun a c => a * 10 + digitVal c) 0

/-- Consume exactly `k` digit characters, returning their value and the rest. -/
def takeDigitsN (k : Nat) (s : Str) : Option (Nat × Str) :=
  let pre := s.take k
  if decide (pre.length = k) && pre.all isD then some (digitsVal pre, s.drop k)
  else none

/-- Candidate matches (in regex preference order) of one character satisfying
a class, with its digit value. -/
def take1 (p : Char → Bool) (s : Str) : List (Nat × Str) :=
  match s with
  | c :: r => if p c then [(digitVal c, r)] else []
  | [] => []

/-- Candidate matches of two characters from two classes, value `10·c₁ + c₂`. -/
def take2 (p1 p2 : Char → Bool) (s : Str) : List (Nat × Str) :=
  match s with
  | c1 :: c2 :: r => if p1 c1 && p2 c2 then [(digitVal c1 * 10 + digitVal c2, r)] else []
  | _ => []

/-- Character range test, as a regex character class `[lo-hi]`. -/
def inRange (lo hi : Char) (c : Char) : Bool := decide (lo ≤ c) && decide (c ≤ hi)

/-- `%Y` in `_strptime`: exactly four digits. -/
def matchY (s : Str) : List (Nat × Str) := (takeDigitsN 4 s).toList

/-- `%m` in `_strptime`: `1[0-2]|0[1-9]|[1-9]`, alternatives in order. -/
def matchm (s : Str) : List (Nat × Str) :=
  take2 (inRange '1' '1') (inRange '0' '2') s ++
  take2 (inRange '0' '0') (inRange '1' '9') s ++
  take1 (inRange '1' '9') s

/-- `%d` in `_strptime`: `3[01]|[12][0-9]|0[1-9]|[1-9]`. -/
def matchd (s : Str) : List (Nat × Str) :=
  take2 (inRange '3' '3') (inRange '0' '1') s ++
  take2 (inRange '1' '2') isD s ++
  take2 (inRange '0' '0') (inRange '1' '9') s ++
  take1 (inRange '1' '9') s

/-- `%H` in `_strptime`: `2[0-3]|[0-1][0-9]|[0-9]`. -/
def matchH (s : Str) : List (Nat × Str) :=
  take2 (inRange '2' '2') (inRange '0' '3') s ++
  take2 (inRange '0' '1') isD s ++
  take1 isD s

/-- `%M` in `_strptime`: `[0-5][0-9]|[0-9]`. -/
def matchM (s : Str) : List (Nat × Str) :=
  take2 (inRange '0' '5') isD s ++ take1 isD s

/-- `%S` in `_strptime`: `6[0-1]|[0-5][0-9]|[0-9]`. -/
def matchS (s : Str) : List (Nat × Str) :=
  take2 (inRange '6' '6') (inRange '0' '1') s ++
  take2 (inRange '0' '5') isD s ++
  take1 isD s

/-- `%f` in `_strptime`: `[0-9]{1,6}`, greedy; the value is the fraction
right-padded with zeros to six digits (microseconds). -/
def matchf (s : Str) : List (Nat × Str) :=
  [6, 5, 4, 3, 2, 1].filterMap fun k =>
    (takeDigitsN k s).map fun p => (p.1 * 10 ^ (6 - k), p.2)

/-- A literal character in the format string. -/
def matchLit (c : Char) (s : Str) : Option Str :=
  match s with
  | x :: r => if x == c then some r else none
  | [] => none

/-- Validation step of `datetime.strptime`: the single regex match is fed to
the `datetime` constructor, which may reject it. -/
def mkValid (t : DT) : Option DT := if validDT t = true then some t else none

/-- First regex match (greedy, with backtracking) of the common prefix
`%Y-%m-%dT%H:%M:%S`, returning the fields (micro 0) and the remainder.
Factoring the prefix out of the two full patterns is sound because every
numeric directive here is followed by a non-digit literal, so the regex
engine never needs to revisit an earlier field after the prefix succeeds. -/
def matchPrefixDT (s : Str) : Option (DT × Str) :=
  (matchY s).findSome? fun py =>
  (matchLit '-' py.2).bind fun s1 =>
  (matchm s1).findSome? fun pm =>
  (matchLit '-' pm.2).bind fun s2 =>
  (matchd s2).findSome? fun pd =>
  (matchLit 'T' pd.2).bind fun s3 =>
  (matchH s3).findSome? fun ph =>
  (matchLit ':' ph.2).bind fun s4 =>
  (matchM s4).findSome? fun pM =>
  (matchLit ':' pM.2).bind fun s5 =>
  (matchS s5).findSome? fun pS =>
  some (⟨py.1, pm.1, pd.1, ph.1, pM.1, pS.1, 0⟩, pS.2)

/-- `datetime.strptime(s, "%Y-%m-%dT%H:%M:%SZ")`: match, reject trailing
unconverted data, then validate. -/
def strptimeNoFrac (s : Str) : Option DT :=
  (matchPrefixDT s).bind fun pr =>
  (matchLit 'Z' pr.2).bind fun r =>
  if r = [] then mkValid pr.1 else none

/-- `datetime.strptime(s, "%Y-%m-%dT%H:%M:%S.%fZ")`. -/
def strptimeFrac (s : Str) : Option DT :=
  (matchPrefixDT s).bind fun pr =>
  (matchLit '.' pr.2).bind fun s1 =>
  ((matchf s1).findSome? fun pf =>
    (matchLit 'Z' pf.2).bind fun r => some (pf.1, r)).bind fun q =>
  if q.2 = [] then mkValid { pr.1 with micro := q.1 } else none

/-- First regex match of `%Y%m%d%H%M%S` (no separators, so the full greedy
backtracking over field widths is kept). -/
def matchCompact (s : Str) : Option (DT × Str) :=
  (matchY s).findSome? fun py =>
  (matchm py.2).findSome? fun pm =>
  (matchd pm.2).findSome? fun pd =>
  (matchH pd.2).findSome? fun ph =>
  (matchM ph.2).findSome? fun pM =>
  (matchS pM.2).findSome? fun pS =>
  some (⟨py.1, pm.1, pd.1, ph.1, pM.1, pS.1, 0⟩, pS.2)

/-- `datetime.strptime(s, "%Y%m%d%H%M%S")`, as used by `prune_old_backups`. -/
def strptimeCompact (s : Str) : Option DT :=
  (matchCompact s).bind fun p => if p.2 = [] then mkValid p.1 else none

/-- Python `str.rstrip(c)`: remove all trailing occurrences of `c`. -/
def pyRstrip (c : Char) (s : Str) : Str :=
  (s.reverse.dropWhile fun x => x == c).reverse

/-- Python `str.split(sep)`: split on every separator, keeping empty parts;
the result is always non-empty. -/
def pySplit (sep : Char) : Str → List Str
  | [] => [[]]
  | c :: rest =>
    match pySplit sep rest with
    | [] => [[c]]
    | h :: t => if c = sep then [] :: h :: t else (c :: h) :: t

/-- `parts[-1]` of a non-empty list of parts. -/
def lastPart (l : List Str) : Str := l.getLastD []

/-- Python `str.endswith(suffix)`. -/
def pyEndsWith (sfx s : Str) : Bool := decide (s.drop (s.length - sfx.length) = sfx)

/-- Python `str.ljust(n, '0')`: right-pad with zeros to length `n`. -/
def ljustZeros (l : Str) (n : Nat) : Str := l ++ List.replicate (n - l.length) '0'

/-- The normalisation `frac[:6].ljust(6, '0')` applied by `parse_iso_datetime`
to a fractional-second digit string. -/
def padTo6 (f : Str) : Str := ljustZeros (f.take 6) 6

/-- `parse_iso_datetime` (src/incus-backup.py lines 91-102): if the string
contains a dot and ends with `Z`, split at the first dot, strip trailing `Z`
from the fraction, truncate/right-pad the fraction to six digits and parse
with `%Y-%m-%dT%H:%M:%S.%fZ`; otherwise parse with `%Y-%m-%dT%H:%M:%SZ`.
A `ValueError` from `strptime` is modelled as `none`. -/
def parse_iso_datetime (s : Str) : Option DT :=
  if s.contains '.' && pyEndsWith [ 'Z' ] s then
    let date_part := s.takeWhile fun c => c != '.'
    let frac_part0 := (s.dropWhile fun c => c != '.').drop 1
    let frac_part := pyRstrip 'Z' frac_part0
    let frac_adjusted := ljustZeros (frac_part.take 6) 6
    strptimeFrac (date_part ++ '.' :: (frac_adjusted ++ [ 'Z' ]))
  else strptimeNoFrac s

/-- Exception kinds relevant to the script: `subprocess.CalledProcessError`
(raised by `subprocess.run(check=True)`) and `RuntimeError` (raised by
`run_command` after catching the former). -/
inductive PyExc where
  | calledProcess
  | runtime
deriving DecidableEq

/-- The environment's command executor: which token lists succeed. -/
abbrev CmdOracle := List Str → Bool

/-- `run_command` (lines 52-66): runs the command; on a
`subprocess.CalledProcessError` it logs and raises `RuntimeError`.  Hence a
failing command always surfaces as `RuntimeError` to callers. -/
def run_command (ok : CmdOracle) (cmd : List Str) : Except PyExc Unit :=
  if ok cmd then Except.ok () else Except.error PyExc.runtime

/-- Command-name tokens. -/
def incusTok : Str := "incus".data

/-- Token `snapshot`. -/
def snapTok : Str := "snapshot".data

/-- Token `create`. -/
def createTok : Str := "create".data

/-- Token `--stateful`. -/
def statefulFlag : Str := "--stateful".data

/-- Token `export`. -/
def exportTok : Str := "export".data

/-- The stateful snapshot-create command built by `snapshot_vm` when
`STATEFUL_SNAPSHOTS` is true. -/
def statefulCreateCmd (vm snap : Str) : List Str :=
  [incusTok, snapTok, createTok, statefulFlag, vm, snap]

/-- The stateless snapshot-create command. -/
def statelessCreateCmd (vm snap : Str) : List Str :=
  [incusTok, snapTok, createTok, vm, snap]

/-- `snapshot_vm` (lines 142-172).  Returns the outcome together with the
list of create commands actually attempted.  The `except
subprocess.CalledProcessError` arm (the stateless fallback) is transcribed
faithfully; note that `run_command` only ever raises `RuntimeError`, which is
handled by the later `except Exception` arm (log and re-raise). -/
def snapshot_vm (ok : CmdOracle) (stateful : Bool) (vm snap : Str) :
    Except PyExc Unit × List (List Str) :=
  let cmd := ([incusTok, snapTok, createTok] ++
    (if stateful then [statefulFlag] else [])) ++ [vm, snap]
  match run_command ok cmd with
  | Except.ok _ => (Except.ok (), [cmd])
  | Except.error PyExc.calledProcess =>
    if stateful then
      match run_command ok (statelessCreateCmd vm snap) with
      | Except.ok _ => (Except.ok (), [cmd, statelessCreateCmd vm snap])
      | Except.error e2 => (Except.error e2, [cmd, statelessCreateCmd vm snap])
    else (Except.error PyExc.calledProcess, [cmd])
  | Except.error PyExc.runtime => (Except.error PyExc.runtime, [cmd])

/-- Configuration constant `RETENTION_DAYS = 7`. -/
def RETENTION_DAYS : Int := 7

/-- Configuration constant `BACKUP_RETENTION_DAYS = 14`. -/
def BACKUP_RETENTION_DAYS : Int := 14

/-- Configuration constant `STATEFUL_SNAPSHOTS = False`. -/
def STATEFUL_SNAPSHOTS : Bool := false

/-- Configuration constant `BACKUP_DIR`. -/
def BACKUP_DIR : Str := "/mnt/ice/incus-vms/".data

/-- A snapshot record as returned by `incus snapshot list --format json`. -/
structure Snap where
  name : Str
  created_at : Str
deriving DecidableEq

/-- The cutoff `datetime.utcnow() - timedelta(days=retention_days)` of
`prune_old_snapshots` (line 117), on the microsecond timeline. -/
def snapshotCutoff (utcnowMicro : Int) (retention_days : Int) : Int :=
  utcnowMicro - retention_days * microsPerDay

/-- The per-snapshot loop of `prune_old_snapshots` (lines 120-140): parse
`created_at` with `parse_iso_datetime` (a `ValueError` is caught and the
snapshot skipped), delete the snapshot when it is strictly older than the
cutoff.  Returns the names for which a delete command was issued. -/
def pruneSnapsLoop (cutoffMicro : Int) : List Snap → List Str
  | [] => []
  | snap :: rest =>
    match parse_iso_datetime snap.created_at with
    | none => pruneSnapsLoop cutoffMicro rest
    | some created_at =>
      if toMicro created_at < cutoffMicro then
        snap.name :: pruneSnapsLoop cutoffMicro rest
      else pruneSnapsLoop cutoffMicro rest

/-- `prune_old_snapshots` (lines 104-140): when the snapshot listing (or its
JSON parse) fails the function logs and returns with no deletions; otherwise
it runs the per-snapshot loop against the UTC cutoff. -/
def prune_old_snapshots (listing : Option (List Snap)) (utcnowMicro : Int)
    (retention_days : Int) : List Str :=
  match listing with
  | none => []
  | some snaps => pruneSnapsLoop (snapshotCutoff utcnowMicro retention_days) snaps

/-- Definition following the spec's words (§8): a snapshot is prunable iff its
`created_at` parses and the parsed instant is strictly before the cutoff. -/
def specSnapOld (cutoffMicro : Int) (s : Snap) : Bool :=
  match parse_iso_datetime s.created_at with
  | some t => decide (toMicro t < cutoffMicro)
  | none => false

/-- Outcome of `export_vm`: whether the destination file was found, and the
metric record (file size) emitted on verified success. -/
structure ExportOut where
  fileFound : Bool
  metrics : Option Nat
deriving DecidableEq

/-- `export_vm` (lines 174-204): run `incus export`; a command failure is
logged and re-raised.  On command success the destination file's existence is
checked independently: if present, metrics are computed and logged; if
absent, an error is logged and the function returns normally. -/
def export_vm (ok : CmdOracle) (fileExists : Str → Bool) (fileSize : Str → Nat)
    (vm backup_path : Str) : Except PyExc ExportOut :=
  match run_command ok [incusTok, exportTok, vm, backup_path] with
  | Except.error e => Except.error e
  | Except.ok _ =>
    if fileExists backup_path then
      Except.ok ⟨true, some (fileSize backup_path)⟩
    else Except.ok ⟨false, none⟩

/-- The metric record carried by an `export_vm` outcome, if any. -/
def metricsOf (r : Except PyExc ExportOut) : Option Nat :=
  match r with
  | Except.ok o => o.metrics
  | Except.error _ => none

/-- The `.tar.gz` suffix required of archive filenames. -/
def tarGzSfx : Str := ".tar.gz".data

/-- The cutoff `datetime.now() - timedelta(days=BACKUP_RETENTION_DAYS)` of
`prune_old_backups` (line 210), on the microsecond timeline (local clock). -/
def backupCutoff (nowMicro : Int) (retention_days : Int) : Int :=
  nowMicro - retention_days * microsPerDay

/-- The timestamp token `filename.split("-")[-1].split(".")[0]` extracted by
`prune_old_backups` (line 221). -/
def backupToken (filename : Str) : Str :=
  (lastPart (pySplit '-' filename)).takeWhile fun c => c != '.'

/-- The per-file loop of `prune_old_backups` (lines 215-235): files not
ending in `.tar.gz` are skipped entirely; a `ValueError` from the timestamp
parse, or a failing `os.remove`, increments the error count; a file whose
decoded timestamp is strictly older than the cutoff is removed.  Returns
(removed files, deleted count, error count). -/
def pruneBackupsLoop (removeOk : Str → Bool) (cutoffMicro : Int) :
    List Str → List Str × Nat × Nat
  | [] => ([], 0, 0)
  | f :: rest =>
    if pyEndsWith tarGzSfx f = false then pruneBackupsLoop removeOk cutoffMicro rest
    else
      match strptimeCompact (backupToken f) with
      | none =>
        ((pruneBackupsLoop removeOk cutoffMicro rest).1,
          (pruneBackupsLoop removeOk cutoffMicro rest).2.1,
          (pruneBackupsLoop removeOk cutoffMicro rest).2.2 + 1)
      | some t =>
        if toMicro t < cutoffMicro then
          if removeOk f then
            (f :: (pruneBackupsLoop removeOk cutoffMicro rest).1,
              (pruneBackupsLoop removeOk cutoffMicro rest).2.1 + 1,
              (pruneBackupsLoop removeOk cutoffMicro rest).2.2)
          else
            ((pruneBackupsLoop removeOk cutoffMicro rest).1,
              (pruneBackupsLoop removeOk cutoffMicro rest).2.1,
              (pruneBackupsLoop removeOk cutoffMicro rest).2.2 + 1)
        else pruneBackupsLoop removeOk cutoffMicro rest

/-- The body of `prune_old_backups` inside its outer `try` (lines 214-237):
`os.listdir` may raise (modelled by `listing = none`); the per-file loop
itself never raises. -/
def prune_backups_attempt (listing : Option (List Str)) (removeOk : Str → Bool)
    (nowMicro : Int) (retention_days : Int) :
    Except PyExc (List Str × Nat × Nat) :=
  match listing with
  | none => Except.error PyExc.runtime
  | some files =>
    Except.ok (pruneBackupsLoop removeOk (backupCutoff nowMicro retention_days) files)

/-- Result of `prune_old_backups`: the removed files, and the aggregate
`(deleted, errors)` counts logged on completion (`none` when the enumeration
failed and the completion log was never reached). -/
structure BackupPruneResult where
  removed : List Str
  report : Option (Nat × Nat)
deriving DecidableEq

/-- `prune_old_backups` (lines 206-240): the whole body is wrapped in
`try ... except Exception: logger.error(...)`, so even a failure to
enumerate the directory is caught and logged, and the function returns
normally in every case. -/
def prune_old_backups (listing : Option (List Str)) (removeOk : Str → Bool)
    (nowMicro : Int) (retention_days : Int) : BackupPruneResult :=
  match prune_backups_attempt listing removeOk nowMicro retention_days with
  | Except.ok (rs, dc, ec) => ⟨rs, some (dc, ec)⟩
  | Except.error _ => ⟨[], none⟩

/-- The basename `"{vm}-{timestamp}.tar.gz"` used by `main` (line 268) for an
instance archive. -/
def archiveFileName (vm ts : Str) : Str := vm ++ '-' :: (ts ++ tarGzSfx)

/-- The full destination path `f"{BACKUP_DIR.rstrip('/')}/{vm}-{timestamp}.tar.gz"`. -/
def backupPathOf (vm ts : Str) : Str :=
  pyRstrip '/' BACKUP_DIR ++ '/' :: archiveFileName vm ts

/-- The snapshot name `f"snapshot-{timestamp}"` (line 267). -/
def snapNameOf (ts : Str) : Str := "snapshot-".data ++ ts

/-- The external environment of one run: directory preparation outcome,
discovered instance names, command outcomes, snapshot listings, filesystem
state, backup-directory enumeration, and the two clock readings taken by the
script (`datetime.utcnow()` and the local `datetime.now()`). -/
structure World where
  dirOk : Bool
  vms : List Str
  cmdOk : CmdOracle
  snapListing : Str → Option (List Snap)
  fileExists : Str → Bool
  fileSize : Str → Nat
  removeOk : Str → Bool
  backupListing : Option (List Str)
  utcnow : DT
  lnow : DT

/-- Observable events of a run of `main`. -/
inductive Ev where
  | pruneSnaps (vm : Str) (deleted : List Str)
  | snapCreated (vm : Str)
  | snapFailed (vm : Str)
  | exported (vm : Str) (found : Bool) (metrics : Option Nat)
  | exportRaised (vm : Str)
  | globalPrune (report : Option (Nat × Nat))
deriving DecidableEq

/-- The per-instance body of `main`'s loop (lines 260-273): prune snapshots
(its own `try` arm), then create a snapshot and export inside one `try`; an
exception from either is caught, logged as "Skipping export", and the loop
moves on to the next instance. -/
def processVM (w : World) (ts : Str) (vm : Str) : List Ev :=
  let deleted := prune_old_snapshots (w.snapListing vm) (toMicro w.utcnow) RETENTION_DAYS
  match (snapshot_vm w.cmdOk STATEFUL_SNAPSHOTS vm (snapNameOf ts)).1 with
  | Except.error _ => [Ev.pruneSnaps vm deleted, Ev.snapFailed vm]
  | Except.ok _ =>
    match export_vm w.cmdOk w.fileExists w.fileSize vm (backupPathOf vm ts) with
    | Except.ok out => [Ev.pruneSnaps vm deleted, Ev.snapCreated vm,
        Ev.exported vm out.fileFound out.metrics]
    | Except.error _ => [Ev.pruneSnaps vm deleted, Ev.snapCreated vm, Ev.exportRaised vm]

/-- `main` (lines 242-275): abort if the backup directory cannot be prepared
or no instances are discovered; otherwise fix the run timestamp from the
local clock, process every instance in order, then call `prune_old_backups`
once. -/
def main_run (w : World) : List Ev :=
  if w.dirOk = false then []
  else if w.vms.isEmpty then []
  else
    let ts := format14 w.lnow
    (w.vms.flatMap (processVM w ts)) ++
      [Ev.globalPrune
        (prune_old_backups w.backupListing w.removeOk (toMicro w.lnow)
          BACKUP_RETENTION_DAYS).report]

/-- Whether an event is the global archive-prune step. -/
def evIsGlobalPrune : Ev → Bool
  | Ev.globalPrune _ => true
  | _ => false

/-- Whether an event is the snapshot-prune step for the given instance. -/
def evIsPruneFor (vm : Str) : Ev → Bool
  | Ev.pruneSnaps v _ => v == vm
  | _ => false

/-- Modelled from the spec: the repository's volume-discovery code is not
under src/ (only the spec's §4.2 describes VolumeDiscovery), so the storage
volume record `{name, project, type, content_type, used_by}` is transcribed
from §4.2 and §6 of the spec. -/
structure Volume where
  name : Str
  project : Str
  vtype : Str
  content_type : Str
  used_by : List Str
deriving DecidableEq

/-- Modelled from the spec (§4.2): "Filter to volumes whose project matches
the configured project, whose type is 'custom,' and whose content type is
'block.'" -/
def volumeFilter (cfgProject : Str) (v : Volume) : Bool :=
  decide (v.project = cfgProject) && decide (v.vtype = "custom".data) &&
  decide (v.content_type = "block".data)

/-- Modelled from the spec (§4.2, §6): a `used_by` reference is a path-like
string identifying an instance by its trailing path segment. -/
def usedByInstance (inst : Str) (ref : Str) : Bool :=
  lastPart (pySplit '/' ref) == inst

/-- Modelled from the spec (§4.2): the volumes associated to one instance —
the filtered volumes whose usage-reference list mentions the instance. -/
def selectedVolumes (cfgProject : Str) (vols : List Volume) (inst : Str) :
    List Volume :=
  (vols.filter (volumeFilter cfgProject)).filter fun v =>
    v.used_by.any (usedByInstance inst)

/-- Digit characters are digits. -/
lemma isD_dCh (a : Nat) (h : a < 10) : isD (dCh a) = true := by
  interval_cases a <;> decide

/-- Digit characters decode to their value. -/
lemma digitVal_dCh (a : Nat) (h : a < 10) : digitVal (dCh a) = a := by
  interval_cases a <;> decide

/-- `%Y` consumes a four-digit zero-padded year exactly. -/
lemma takeDigitsN_pad4 (y : Nat) (hy : y ≤ 9999) (r : Str) :
    takeDigitsN 4 (pad4 y ++ r) = some (y, r) := by
  have h1 : y / 1000 % 10 < 10 := Nat.mod_lt _ (by omega)
  have h2 : y / 100 % 10 < 10 := Nat.mod_lt _ (by omega)
  have h3 : y / 10 % 10 < 10 := Nat.mod_lt _ (by omega)
  have h4 : y % 10 < 10 := Nat.mod_lt _ (by omega)
  have hlen : (pad4 y).length = 4 := by simp [pad4]
  have htake : (pad4 y ++ r).take 4 = pad4 y := by
    rw [← hlen]; exact List.take_left _ _
  have hdrop : (pad4 y ++ r).drop 4 = r := by
    rw [← hlen]; exact List.drop_left _ _
  have hall : (pad4 y).all isD = true := by
    simp [pad4, List.all, isD_dCh _ h1, isD_dCh _ h2, isD_dCh _ h3, isD_dCh _ h4]
  have hval : digitsVal (pad4 y) = y := by
    simp [digitsVal, pad4, List.foldl, digitVal_dCh _ h1, digitVal_dCh _ h2,
      digitVal_dCh _ h3, digitVal_dCh _ h4]
    omega
  simp [takeDigitsN, htake, hdrop, hlen, hall, hval]

/-- The first `%m` candidate on a zero-padded in-range month is the month. -/
lemma matchm_pad2 (n : Nat) (h1 : 1 ≤ n) (h2 : n ≤ 12) (r : Str) :
    ∃ tl, matchm (pad2 n ++ r) = (n, r) :: tl := by
  interval_cases n <;> exact ⟨_, rfl⟩

/-- The first `%d` candidate on a zero-padded in-range day is the day. -/
lemma matchd_pad2 (n : Nat) (h1 : 1 ≤ n) (h2 : n ≤ 31) (r : Str) :
    ∃ tl, matchd (pad2 n ++ r) = (n, r) :: tl := by
  interval_cases n <;> exact ⟨_, rfl⟩

/-- The first `%H` candidate on a zero-padded in-range hour is the hour. -/
lemma matchH_pad2 (n : Nat) (h2 : n ≤ 23) (r : Str) :
    ∃ tl, matchH (pad2 n ++ r) = (n, r) :: tl := by
  interval_cases n <;> exact ⟨_, rfl⟩

/-- The first `%M` candidate on a zero-padded in-range minute is the minute. -/
lemma matchM_pad2 (n : Nat) (h2 : n ≤ 59) (r : Str) :
    ∃ tl, matchM (pad2 n ++ r) = (n, r) :: tl := by
  interval_cases n <;> exact ⟨_, rfl⟩

/-- The first `%S` candidate on a zero-padded in-range second is the second. -/
lemma matchS_pad2 (n : Nat) (h2 : n ≤ 59) (r : Str) :
    ∃ tl, matchS (pad2 n ++ r) = (n, r) :: tl := by
  interval_cases n <;> exact ⟨_, rfl⟩

lemma findSome?_cons_of_some {α β : Type} (f : α → Option β) (a : α) (l : List α)
    (b : β) (h : f a = some b) : (a :: l).findSome? f = some b := by
  simp [List.findSome?_cons, h]

lemma validDT_unpack (t : DT) (h : validDT t = true) :
    1 ≤ t.year ∧ t.year ≤ 9999 ∧ 1 ≤ t.month ∧ t.month ≤ 12 ∧ 1 ≤ t.day ∧
    t.day ≤ daysInMonth t.year t.month ∧ t.hour ≤ 23 ∧ t.minute ≤ 59 ∧
    t.second ≤ 59 ∧ t.micro ≤ 999999 := by
  simp only [validDT, Bool.and_eq_true, decide_eq_true_eq] at h
  tauto

lemma daysInMonth_le (y m : Nat) : daysInMonth y m ≤ 31 := by
  unfold daysInMonth
  split
  · split <;> omega
  · split <;> omega

lemma strptimeCompact_format14 (t : DT) (h : validDT t = true) :
    strptimeCompact (format14 t) =
      some ⟨t.year, t.month, t.day, t.hour, t.minute, t.second, 0⟩ := by
  obtain ⟨hy1, hy2, hm1, hm2, hd1, hd2, hH, hM, hS, _⟩ := validDT_unpack t h
  obtain ⟨tm, em⟩ := matchm_pad2 t.month hm1 hm2
    (pad2 t.day ++ (pad2 t.hour ++ (pad2 t.minute ++ pad2 t.second)))
  obtain ⟨td, ed⟩ := matchd_pad2 t.day hd1 (le_trans hd2 (daysInMonth_le _ _))
    (pad2 t.hour ++ (pad2 t.minute ++ pad2 t.second))
  obtain ⟨tH, eH⟩ := matchH_pad2 t.hour hH (pad2 t.minute ++ pad2 t.second)
  obtain ⟨tM, eM⟩ := matchM_pad2 t.minute hM (pad2 t.second)
  obtain ⟨tS, eS⟩ := matchS_pad2 t.second hS []
  have eS' : matchS (pad2 t.second) = (t.second, ([] : Str)) :: tS := by
    simpa using eS
  have hvalid : validDT ⟨t.year, t.month, t.day, t.hour, t.minute, t.second, 0⟩ = true := by
    simp only [validDT, Bool.and_eq_true, decide_eq_true_eq]
    exact ⟨⟨⟨⟨⟨⟨⟨⟨⟨hy1, hy2⟩, hm1⟩, hm2⟩, hd1⟩, hd2⟩, hH⟩, hM⟩, hS⟩, Nat.zero_le _⟩
  unfold strptimeCompact matchCompact matchY format14
  rw [takeDigitsN_pad4 t.year hy2]
  simp only [Option.toList]
  rw [findSome?_cons_of_some _ _ _ (⟨t.year, t.month, t.day, t.hour, t.minute, t.second, 0⟩, ([] : Str)) ?step]
  · simp [mkValid, hvalid]
  · show (matchm _).findSome? _ = _
    rw [em, findSome?_cons_of_some _ _ _ (⟨t.year, t.month, t.day, t.hour, t.minute, t.second, 0⟩, ([] : Str)) ?step2]
    show (matchd _).findSome? _ = _
    rw [ed, findSome?_cons_of_some _ _ _ (⟨t.year, t.month, t.day, t.hour, t.minute, t.second, 0⟩, ([] : Str)) ?step3]
    show (matchH _).findSome? _ = _
    rw [eH, findSome?_cons_of_some _ _ _ (⟨t.year, t.month, t.day, t.hour, t.minute, t.second, 0⟩, ([] : Str)) ?step4]
    show (matchM _).findSome? _ = _
    rw [eM, findSome?_cons_of_some _ _ _ (⟨t.year, t.month, t.day, t.hour, t.minute, t.second, 0⟩, ([] : Str)) ?step5]
    show (matchS _).findSome? _ = _
    rw [eS']
    exact findSome?_cons_of_some _ _ _ _ rfl

lemma pySplit_ne_nil (sep : Char) (s : Str) : pySplit sep s ≠ [] := by
  cases s with
  | nil => simp [pySplit]
  | cons c rest =>
    simp only [pySplit]
    cases h : pySplit sep rest with
    | nil => simp [h]
    | cons hd tl =>
      simp only [h]
      split <;> simp

lemma pySplit_no_sep (sep : Char) (s : Str) (h : sep ∉ s) : pySplit sep s = [s] := by
  induction s with
  | nil => rfl
  | cons c rest ih =>
    have hc : c ≠ sep := fun e => h (e ▸ List.mem_cons_self c rest)
    have hr : sep ∉ rest := fun m => h (List.mem_cons_of_mem c m)
    simp only [pySplit, ih hr]
    simp [hc]

lemma pySplit_len2 (sep : Char) (s : Str) (h : sep ∈ s) :
    2 ≤ (pySplit sep s).length := by
  induction s with
  | nil => cases h
  | cons c rest ih =>
    simp only [pySplit]
    cases hr : pySplit sep rest with
    | nil => exact absurd hr (pySplit_ne_nil sep rest)
    | cons hd tl =>
      by_cases hc : c = sep
      · simp [hc]
      · have hmem : sep ∈ rest := by
          rcases List.mem_cons.mp h with h1 | h2
          · exact absurd h1.symm hc
          · exact h2
        have := ih hmem
        rw [hr] at this
        simp only [List.length_cons] at this
        simp [hc]
        omega

lemma getLastD_indep {α : Type} (l : List α) (h : l ≠ []) (d1 d2 : α) :
    l.getLastD d1 = l.getLastD d2 := by
  cases l with
  | nil => exact absurd rfl h
  | cons a t =>
    obtain ⟨x, hx⟩ := Option.isSome_iff_exists.mp (List.getLast?_isSome.mpr h)
    simp [List.getLastD_eq_getLast?, hx]

lemma lastPart_split_append (sep : Char) (xs ys : Str) (h : sep ∉ ys) :
    lastPart (pySplit sep (xs ++ sep :: ys)) = ys := by
  induction xs with
  | nil =>
    simp only [List.nil_append, pySplit, pySplit_no_sep sep ys h]
    simp [lastPart]
  | cons x xs ih =>
    simp only [List.cons_append, pySplit]
    cases hr : pySplit sep (xs ++ sep :: ys) with
    | nil => exact absurd hr (pySplit_ne_nil _ _)
    | cons hd tl =>
      have ihx := ih
      rw [hr] at ihx
      by_cases hx : x = sep
      · simp only [hx, if_pos rfl]
        cases tl with
        | nil =>
          simpa [lastPart] using ihx
        | cons a b =>
          simpa [lastPart, List.getLast?_cons_cons] using ihx
      · simp only [if_neg hx]
        cases tl with
        | nil =>
          have h2 : 2 ≤ (pySplit sep (xs ++ sep :: ys)).length :=
            pySplit_len2 sep _ (List.mem_append_right xs (List.mem_cons_self sep ys))
          rw [hr] at h2
          simp at h2
        | cons a b =>
          simpa [lastPart, List.getLast?_cons_cons] using ihx

lemma pad2_all_isD (n : Nat) : (pad2 n).all isD = true := by
  have h1 : n / 10 % 10 < 10 := Nat.mod_lt _ (by omega)
  have h2 : n % 10 < 10 := Nat.mod_lt _ (by omega)
  simp [pad2, isD_dCh _ h1, isD_dCh _ h2]

lemma pad4_all_isD (n : Nat) : (pad4 n).all isD = true := by
  have h1 : n / 1000 % 10 < 10 := Nat.mod_lt _ (by omega)
  have h2 : n / 100 % 10 < 10 := Nat.mod_lt _ (by omega)
  have h3 : n / 10 % 10 < 10 := Nat.mod_lt _ (by omega)
  have h4 : n % 10 < 10 := Nat.mod_lt _ (by omega)
  simp [pad4, isD_dCh _ h1, isD_dCh _ h2, isD_dCh _ h3, isD_dCh _ h4]

lemma format14_all_isD (t : DT) : (format14 t).all isD = true := by
  simp [format14, List.all_append, pad4_all_isD, pad2_all_isD]

lemma isD_ne_hyphen {c : Char} (h : isD c = true) : c ≠ '-' := by
  rintro rfl; simp [isD] at h

lemma isD_ne_dot {c : Char} (h : isD c = true) : c ≠ '.' := by
  rintro rfl; simp [isD] at h

lemma backupToken_archive (vm ts : Str) (hts : ts.all isD = true) :
    backupToken (archiveFileName vm ts) = ts := by
  have hmem : ∀ c ∈ ts, isD c = true := by
    intro c hc; exact List.all_eq_true.mp hts c hc
  have hsep : '-' ∉ ts ++ tarGzSfx := by
    intro hin
    rcases List.mem_append.mp hin with h1 | h2
    · exact isD_ne_hyphen (hmem _ h1) rfl
    · revert h2; decide
  unfold backupToken archiveFileName
  rw [lastPart_split_append '-' vm (ts ++ tarGzSfx) hsep]
  have hsfx : tarGzSfx = '.' :: "tar.gz".data := by decide
  rw [hsfx]
  rw [List.takeWhile_append_of_pos (p := fun c => c != '.')
    (fun a ha => by simpa using isD_ne_dot (hmem a ha))]
  simp [List.takeWhile]

lemma pyEndsWith_append (sfx l : Str) : pyEndsWith sfx (l ++ sfx) = true := by
  have hlen : (l ++ sfx).length - sfx.length = l.length := by
    simp [List.length_append]
  simp [pyEndsWith, hlen, List.drop_left]

lemma archive_endswith (vm ts : Str) :
    pyEndsWith tarGzSfx (archiveFileName vm ts) = true := by
  have : archiveFileName vm ts = (vm ++ '-' :: ts) ++ tarGzSfx := by
    simp [archiveFileName]
  rw [this]
  exact pyEndsWith_append _ _

lemma dropWhile_of_all_neg {p : Char → Bool} (l : Str) (h : ∀ c ∈ l, p c = false) :
    l.dropWhile p = l := by
  cases l with
  | nil => rfl
  | cons a t => simp [List.dropWhile, h a (List.mem_cons_self a t)]

lemma contains_append_cons (d : Str) (c : Char) (r : Str) :
    (d ++ c :: r).contains c = true := by
  simp

lemma parse_iso_frac_normalized (d f : Str) (hd : ∀ c ∈ d, c ≠ '.')
    (hf : f.all isD = true) :
    parse_iso_datetime (d ++ '.' :: (f ++ [ 'Z' ])) =
      strptimeFrac (d ++ '.' :: (padTo6 f ++ [ 'Z' ])) := by
  have hfm : ∀ c ∈ f, isD c = true := fun c hc => List.all_eq_true.mp hf c hc
  have hcon : (d ++ '.' :: (f ++ [ 'Z' ])).contains '.' = true :=
    contains_append_cons d '.' (f ++ [ 'Z' ])
  have hend : pyEndsWith [ 'Z' ] (d ++ '.' :: (f ++ [ 'Z' ])) = true := by
    have e : d ++ '.' :: (f ++ [ 'Z' ]) = (d ++ '.' :: f) ++ [ 'Z' ] := by simp
    rw [e]; exact pyEndsWith_append _ _
  have htake : (d ++ '.' :: (f ++ [ 'Z' ])).takeWhile (fun c => c != '.') = d := by
    rw [List.takeWhile_append_of_pos (fun a ha => by simpa using hd a ha)]
    simp [List.takeWhile]
  have hdrop : (d ++ '.' :: (f ++ [ 'Z' ])).dropWhile (fun c => c != '.') =
      '.' :: (f ++ [ 'Z' ]) := by
    rw [List.dropWhile_append_of_pos (fun a ha => by simpa using hd a ha)]
    simp [List.dropWhile]
  have hrstrip : pyRstrip 'Z' (f ++ [ 'Z' ]) = f := by
    unfold pyRstrip
    rw [List.reverse_append]
    simp only [List.reverse_cons, List.reverse_nil, List.nil_append, List.singleton_append,
      List.dropWhile_cons]
    have : (('Z' : Char) == 'Z') = true := by decide
    rw [this]
    simp only [if_true]
    rw [dropWhile_of_all_neg f.reverse (fun c hc => by
      have := hfm c (List.mem_reverse.mp hc)
      have hne : c ≠ 'Z' := by rintro rfl; simp [isD] at this
      simp [hne])]
    simp
  unfold parse_iso_datetime
  rw [hcon, hend]
  simp only [Bool.and_self, if_true]
  rw [htake, hdrop]
  simp only [List.drop_succ_cons, List.drop_zero]
  rw [hrstrip]
  rfl

/-- C1: for every instance and snapshot name, when a stateful snapshot is
requested and the stateful create attempt fails, the claimed stateless retry
never happens: `run_command` converts the `CalledProcessError` into a
`RuntimeError`, which bypasses the `except subprocess.CalledProcessError`
fallback arm of `snapshot_vm`, so the only command ever attempted is the
stateful create and the error propagates directly to the caller. -/
theorem spec_c1_stateful_no_retry (ok : CmdOracle) (vm snap : Str)
    (h : ok (statefulCreateCmd vm snap) = false) :
    snapshot_vm ok true vm snap =
      (Except.error PyExc.runtime, [statefulCreateCmd vm snap]) := by
  simp [snapshot_vm, run_command, statefulCreateCmd] at h ⊢
  simp [h]

/-- Witness for C1 at a concrete failing oracle: the stateful create fails
and `snapshot_vm` returns the error after exactly one attempted command. -/
theorem spec_c1_stateful_no_retry_witness :
    ((fun _ => false : CmdOracle)
        (statefulCreateCmd "web1".data "snapshot-20240101000000".data) = false) ∧
    snapshot_vm (fun _ => false) true "web1".data "snapshot-20240101000000".data =
      (Except.error PyExc.runtime,
        [statefulCreateCmd "web1".data "snapshot-20240101000000".data]) :=
  ⟨rfl, spec_c1_stateful_no_retry _ _ _ rfl⟩

/-- C2: for every snapshot list, retention window and current UTC time,
snapshot pruning issues a delete for exactly those snapshots whose parsed
`created_at` is strictly earlier than `utcnow − retention_days`, and retains
every snapshot at or after that cutoff (and every unparsable one). -/
theorem spec_c2_prune_boundary (snaps : List Snap)
    (utcnowMicro retention_days : Int) :
    prune_old_snapshots (some snaps) utcnowMicro retention_days =
      (snaps.filter
        (specSnapOld (snapshotCutoff utcnowMicro retention_days))).map Snap.name := by
  unfold prune_old_snapshots
  induction snaps with
  | nil => rfl
  | cons s t ih =>
    simp only [pruneSnapsLoop, List.filter_cons]
    cases h : parse_iso_datetime s.created_at with
    | none => simpa [specSnapOld, h] using ih
    | some dt =>
      by_cases hlt : toMicro dt < snapshotCutoff utcnowMicro retention_days
      · simpa [specSnapOld, h, hlt] using ih
      · simpa [specSnapOld, h, hlt] using ih

/-- C3: fractional-second strings that agree after the normalisation
`frac[:6].ljust(6, '0')` (i.e. denote the same instant at microsecond
precision) parse identically under `parse_iso_datetime`; in particular
`.5Z`, `.500000Z` and `.500000001Z` all parse to `.500000`, the whole-second
form parses like an explicit zero fraction, and this normalised parse is
exactly the one the snapshot-prune loop applies to `created_at`. -/
theorem spec_c3_frac_normalization :
    (∀ d f1 f2 : Str, (∀ c ∈ d, c ≠ '.') → f1.all isD = true →
      f2.all isD = true → padTo6 f1 = padTo6 f2 →
      parse_iso_datetime (d ++ '.' :: (f1 ++ [ 'Z' ])) =
        parse_iso_datetime (d ++ '.' :: (f2 ++ [ 'Z' ]))) ∧
    parse_iso_datetime "2024-01-02T03:04:05.5Z".data =
      some ⟨2024, 1, 2, 3, 4, 5, 500000⟩ ∧
    parse_iso_datetime "2024-01-02T03:04:05.500000Z".data =
      some ⟨2024, 1, 2, 3, 4, 5, 500000⟩ ∧
    parse_iso_datetime "2024-01-02T03:04:05.500000001Z".data =
      some ⟨2024, 1, 2, 3, 4, 5, 500000⟩ ∧
    parse_iso_datetime "2024-01-02T03:04:05Z".data =
      parse_iso_datetime "2024-01-02T03:04:05.0Z".data ∧
    (∀ (cm : Int) (nm d f1 f2 : Str), (∀ c ∈ d, c ≠ '.') → f1.all isD = true →
      f2.all isD = true → padTo6 f1 = padTo6 f2 →
      pruneSnapsLoop cm [⟨nm, d ++ '.' :: (f1 ++ [ 'Z' ])⟩] =
        pruneSnapsLoop cm [⟨nm, d ++ '.' :: (f2 ++ [ 'Z' ])⟩]) := by
  have key : ∀ d f1 f2 : Str, (∀ c ∈ d, c ≠ '.') → f1.all isD = true →
      f2.all isD = true → padTo6 f1 = padTo6 f2 →
      parse_iso_datetime (d ++ '.' :: (f1 ++ [ 'Z' ])) =
        parse_iso_datetime (d ++ '.' :: (f2 ++ [ 'Z' ])) := by
    intro d f1 f2 hd h1 h2 hpad
    rw [parse_iso_frac_normalized d f1 hd h1, parse_iso_frac_normalized d f2 hd h2, hpad]
  refine ⟨key, by decide, by decide, by decide, by decide, ?_⟩
  intro cm nm d f1 f2 h1 h2 h3 h4
  simp only [pruneSnapsLoop]
  rw [key d f1 f2 h1 h2 h3 h4]

/-- Witness for C3: the `.5Z` and `.500000001Z` spellings of the same
instant, with a dot-free date part, satisfy the hypotheses and parse
identically. -/
theorem spec_c3_frac_normalization_witness :
    ((∀ c ∈ ("2024-01-02T03:04:05".data : Str), c ≠ '.') ∧
      ("5".data : Str).all isD = true ∧ ("500000001".data : Str).all isD = true ∧
      padTo6 "5".data = padTo6 "500000001".data) ∧
    parse_iso_datetime ("2024-01-02T03:04:05".data ++ '.' :: ("5".data ++ [ 'Z' ])) =
      parse_iso_datetime
        ("2024-01-02T03:04:05".data ++ '.' :: ("500000001".data ++ [ 'Z' ])) :=
  ⟨⟨by decide, by decide, by decide, by decide⟩,
    spec_c3_frac_normalization.1 _ _ _ (by decide) (by decide) (by decide) (by decide)⟩

/-- Definition following the spec's words (§4.5): a `.tar.gz` file whose
embedded timestamp fails to decode (counted as an error, left untouched). -/
def specParseError (f : Str) : Bool :=
  pyEndsWith tarGzSfx f && (strptimeCompact (backupToken f)).isNone

/-- Definition following the spec's words (§4.5): a `.tar.gz` file that is
old enough to delete but whose deletion fails (counted as an error). -/
def specRemoveError (removeOk : Str → Bool) (c : Int) (f : Str) : Bool :=
  pyEndsWith tarGzSfx f &&
  (match strptimeCompact (backupToken f) with
   | some t => decide (toMicro t < c) && !(removeOk f)
   | none => false)

lemma pruneBackupsLoop_removed_sound (removeOk : Str → Bool) (c : Int)
    (files : List Str) (f : Str)
    (hf : f ∈ (pruneBackupsLoop removeOk c files).1) :
    pyEndsWith tarGzSfx f = true ∧
    ∃ t, strptimeCompact (backupToken f) = some t ∧ toMicro t < c := by
  induction files with
  | nil => simp [pruneBackupsLoop] at hf
  | cons g rest ih =>
    simp only [pruneBackupsLoop] at hf
    by_cases hg : pyEndsWith tarGzSfx g = false
    · rw [if_pos hg] at hf
      exact ih hf
    · rw [if_neg hg] at hf
      cases hp : strptimeCompact (backupToken g) with
      | none =>
        simp only [hp] at hf
        exact ih hf
      | some t =>
        simp only [hp] at hf
        by_cases hlt : toMicro t < c
        · simp only [hlt, if_true] at hf
          by_cases hrm : removeOk g = true
          · simp only [hrm, if_true] at hf
            rcases List.mem_cons.mp hf with rfl | hmem
            · exact ⟨by simpa using hg, t, hp, hlt⟩
            · exact ih hmem
          · simp only [hrm, if_false] at hf
            exact ih hf
        · simp only [hlt, if_false] at hf
          exact ih hf

lemma pruneBackupsLoop_counts (removeOk : Str → Bool) (c : Int)
    (files : List Str) :
    (pruneBackupsLoop removeOk c files).2.1 =
      (pruneBackupsLoop removeOk c files).1.length ∧
    (pruneBackupsLoop removeOk c files).2.2 =
      files.countP specParseError + files.countP (specRemoveError removeOk c) := by
  induction files with
  | nil => simp [pruneBackupsLoop]
  | cons g rest ih =>
    obtain ⟨ih1, ih2⟩ := ih
    simp only [pruneBackupsLoop, List.countP_cons]
    by_cases hg : pyEndsWith tarGzSfx g = false
    · have e1 : specParseError g = false := by simp [specParseError, hg]
      have e2 : specRemoveError removeOk c g = false := by simp [specRemoveError, hg]
      simp [hg, e1, e2, ih1, ih2]
    · have hg' : pyEndsWith tarGzSfx g = true := by simpa using hg
      cases hp : strptimeCompact (backupToken g) with
      | none =>
        have e1 : specParseError g = true := by simp [specParseError, hg', hp]
        have e2 : specRemoveError removeOk c g = false := by
          simp [specRemoveError, hp]
        simp [hg, hp, e1, e2, ih1, ih2]
        omega
      | some t =>
        have e1 : specParseError g = false := by simp [specParseError, hp]
        by_cases hlt : toMicro t < c
        · by_cases hrm : removeOk g = true
          · have e2 : specRemoveError removeOk c g = false := by
              simp [specRemoveError, hp, hrm]
            simp [hg, hp, hlt, hrm, e1, e2, ih1, ih2]
          · have hrm' : removeOk g = false := by simpa using hrm
            have e2 : specRemoveError removeOk c g = true := by
              simp [specRemoveError, hg', hp, hlt, hrm']
            simp [hg, hp, hlt, hrm', e1, e2, ih1, ih2]
            omega
        · have e2 : specRemoveError removeOk c g = false := by
            simp [specRemoveError, hp, hlt]
          simp [hg, hp, hlt, e1, e2, ih1, ih2]

/-- C4 counterexample: `vm-202401020304.tar.gz` carries a 12-digit token
(not 14 digits), yet `strptime("%Y%m%d%H%M%S")` accepts it (as
2024-01-02 03:00:04, via the flexible one-or-two-digit minute and second
directives) and the pruner deletes the file, so the claim that files without
a 14-digit token are never deleted is false on the code. -/
theorem spec_c4_counterexample :
    (prune_old_backups (some [ "vm-202401020304.tar.gz".data ]) (fun _ => true)
        (toMicro ⟨2024, 3, 1, 0, 0, 0, 0⟩) 14).removed =
      [ "vm-202401020304.tar.gz".data ] := by
  decide

/-- C4 amended: the archive pruner never deletes a file that does not end in
`.tar.gz`, and deletes a `.tar.gz` file only when the token between its last
hyphen and the following dot decodes under Python's flexible
`%Y%m%d%H%M%S` rule (which accepts some 9-to-14-digit tokens, not only
14-digit ones) to an instant strictly older than the cutoff; `.tar.gz`
names whose token fails to decode are counted as errors and left
untouched. -/
theorem spec_c4_amended (listing : Option (List Str)) (removeOk : Str → Bool)
    (nowMicro retention_days : Int) (f : Str)
    (hf : f ∈ (prune_old_backups listing removeOk nowMicro retention_days).removed) :
    pyEndsWith tarGzSfx f = true ∧
    ∃ t, strptimeCompact (backupToken f) = some t ∧
      toMicro t < backupCutoff nowMicro retention_days := by
  cases listing with
  | none => simp [prune_old_backups, prune_backups_attempt] at hf
  | some files =>
    have hf' : f ∈ (pruneBackupsLoop removeOk
        (backupCutoff nowMicro retention_days) files).1 := by
      simpa [prune_old_backups, prune_backups_attempt] using hf
    exact pruneBackupsLoop_removed_sound _ _ _ _ hf'

/-- Witness for C4 amended: a well-formed old archive is removed, and the
theorem recovers its suffix and decoded timestamp. -/
theorem spec_c4_amended_witness :
    ("web1-20240101000000.tar.gz".data ∈
      (prune_old_backups (some [ "web1-20240101000000.tar.gz".data ])
        (fun _ => true) (toMicro ⟨2024, 3, 1, 0, 0, 0, 0⟩) 14).removed) ∧
    (pyEndsWith tarGzSfx "web1-20240101000000.tar.gz".data = true ∧
      ∃ t, strptimeCompact (backupToken "web1-20240101000000.tar.gz".data) = some t ∧
        toMicro t < backupCutoff (toMicro ⟨2024, 3, 1, 0, 0, 0, 0⟩) 14) :=
  ⟨by decide,
    spec_c4_amended (some [ "web1-20240101000000.tar.gz".data ]) (fun _ => true)
      (toMicro ⟨2024, 3, 1, 0, 0, 0, 0⟩) 14 "web1-20240101000000.tar.gz".data
      (by decide)⟩

/-- C5: for every instance name and run timestamp, the archive filename
`{vm}-{YYYYMMDDHHMMSS}.tar.gz` produced by the export step round-trips
through the pruner's decoder: the token between the last hyphen and the
`.tar.gz` suffix is exactly the 14-digit timestamp, and parsing it with
`%Y%m%d%H%M%S` yields the instant the filename was built from (the year
bound keeps `strftime("%Y")` at exactly four digits). -/
theorem spec_c5_roundtrip (vm : Str) (t : DT) (h1 : validDT t = true)
    (_h2 : 1000 ≤ t.year) :
    backupToken (archiveFileName vm (format14 t)) = format14 t ∧
    strptimeCompact (format14 t) =
      some ⟨t.year, t.month, t.day, t.hour, t.minute, t.second, 0⟩ :=
  ⟨backupToken_archive vm (format14 t) (format14_all_isD t),
    strptimeCompact_format14 t h1⟩

/-- Witness for C5 at `web1` and 2024-02-20 01:02:03. -/
theorem spec_c5_roundtrip_witness :
    (validDT ⟨2024, 2, 20, 1, 2, 3, 0⟩ = true ∧
      1000 ≤ (⟨2024, 2, 20, 1, 2, 3, 0⟩ : DT).year) ∧
    (backupToken (archiveFileName "web1".data (format14 ⟨2024, 2, 20, 1, 2, 3, 0⟩)) =
        format14 ⟨2024, 2, 20, 1, 2, 3, 0⟩ ∧
      strptimeCompact (format14 ⟨2024, 2, 20, 1, 2, 3, 0⟩) =
        some ⟨2024, 2, 20, 1, 2, 3, 0⟩) :=
  ⟨⟨by decide, by decide⟩,
    spec_c5_roundtrip "web1".data ⟨2024, 2, 20, 1, 2, 3, 0⟩ (by decide) (by decide)⟩

/-- C6 counterexample: when the backup directory cannot be enumerated
(`os.listdir` raises), `prune_old_backups` does not raise — the inner
attempt fails but the outer `except Exception` swallows it, the function
returns normally, and no aggregate counts are reported; this refutes the
claim that the pruner raises in exactly that case. -/
theorem spec_c6_counterexample :
    prune_backups_attempt none (fun _ => true) 0 14 =
      Except.error PyExc.runtime ∧
    prune_old_backups none (fun _ => true) 0 14 =
      ⟨[], none⟩ :=
  ⟨rfl, rfl⟩

/-- C6 amended: the archive pruner counts and skips per-file errors and
never raises at all — an enumeration failure is also caught and logged, in
which case no counts are reported; when enumeration succeeds it reports the
aggregate counts: deleted = number of removed files, errors = per-file
timestamp-parse failures plus per-file deletion failures. -/
theorem spec_c6_amended :
    (∀ (removeOk : Str → Bool) (nowMicro retention_days : Int),
      prune_old_backups none removeOk nowMicro retention_days = ⟨[], none⟩) ∧
    (∀ (files : List Str) (removeOk : Str → Bool) (nowMicro retention_days : Int),
      (prune_old_backups (some files) removeOk nowMicro retention_days).removed =
        (pruneBackupsLoop removeOk (backupCutoff nowMicro retention_days) files).1 ∧
      (prune_old_backups (some files) removeOk nowMicro retention_days).report =
        some
          ((pruneBackupsLoop removeOk (backupCutoff nowMicro retention_days) files).1.length,
            files.countP specParseError +
              files.countP
                (specRemoveError removeOk (backupCutoff nowMicro retention_days)))) := by
  refine ⟨fun _ _ _ => rfl, fun files removeOk nowMicro retention_days => ?_⟩
  obtain ⟨h1, h2⟩ := pruneBackupsLoop_counts removeOk
    (backupCutoff nowMicro retention_days) files
  constructor
  · rfl
  · simp [prune_old_backups, prune_backups_attempt, ← h1, ← h2]

/-- C7: when the export command reports success but the destination file is
absent, `export_vm` records the failure (no metrics) and returns normally —
success exit status alone is not trusted; metrics are emitted exactly when
the command succeeded and the file exists; and the per-instance step of
`main` completes normally in that situation, so the run proceeds to the next
instance. -/
theorem spec_c7_export_verification :
    (∀ (ok : CmdOracle) (fe : Str → Bool) (fs : Str → Nat) (vm p : Str),
      ok [incusTok, exportTok, vm, p] = true → fe p = false →
      export_vm ok fe fs vm p = Except.ok ⟨false, none⟩) ∧
    (∀ (ok : CmdOracle) (fe : Str → Bool) (fs : Str → Nat) (vm p : Str),
      metricsOf (export_vm ok fe fs vm p) =
        if ok [incusTok, exportTok, vm, p] && fe p then some (fs p) else none) ∧
    (∀ (w : World) (ts vm : Str),
      w.cmdOk (statelessCreateCmd vm (snapNameOf ts)) = true →
      w.cmdOk [incusTok, exportTok, vm, backupPathOf vm ts] = true →
      w.fileExists (backupPathOf vm ts) = false →
      processVM w ts vm =
        [Ev.pruneSnaps vm
          (prune_old_snapshots (w.snapListing vm) (toMicro w.utcnow) RETENTION_DAYS),
          Ev.snapCreated vm, Ev.exported vm false none]) := by
  refine ⟨?_, ?_, ?_⟩
  · intro ok fe fs vm p hok hfe
    simp [export_vm, run_command, hok, hfe]
  · intro ok fe fs vm p
    by_cases hok : ok [incusTok, exportTok, vm, p] = true
    · by_cases hfe : fe p = true
      · simp [export_vm, run_command, metricsOf, hok, hfe]
      · simp [export_vm, run_command, metricsOf, hok, hfe]
    · simp [export_vm, run_command, metricsOf, hok]
  · intro w ts vm hsnap hexp hfe
    simp only [statelessCreateCmd] at hsnap
    simp [processVM, snapshot_vm, export_vm, run_command, STATEFUL_SNAPSHOTS,
      hsnap, hexp, hfe]

/-- A concrete run environment: two instances, every command succeeding, no
snapshot listings, no files on disk, and a backup directory that cannot be
enumerated. -/
def exWorld : World :=
  ⟨true, [ "web1".data, "db1".data ], fun _ => true, fun _ => none,
    fun _ => false, fun _ => 0, fun _ => true, none,
    ⟨2024, 1, 1, 0, 0, 0, 0⟩, ⟨2024, 1, 1, 0, 0, 0, 0⟩⟩

/-- Witness for C7: in `exWorld` the export command succeeds but no file
appears; the per-instance step still completes normally with the failure
recorded and no metrics. -/
theorem spec_c7_export_verification_witness :
    (exWorld.cmdOk (statelessCreateCmd "web1".data
        (snapNameOf "20240101000000".data)) = true ∧
      exWorld.cmdOk [incusTok, exportTok, "web1".data,
        backupPathOf "web1".data "20240101000000".data] = true ∧
      exWorld.fileExists (backupPathOf "web1".data "20240101000000".data) = false) ∧
    processVM exWorld "20240101000000".data "web1".data =
      [Ev.pruneSnaps "web1".data
        (prune_old_snapshots (exWorld.snapListing "web1".data)
          (toMicro exWorld.utcnow) RETENTION_DAYS),
        Ev.snapCreated "web1".data, Ev.exported "web1".data false none] :=
  ⟨⟨rfl, rfl, rfl⟩,
    spec_c7_export_verification.2.2 exWorld "20240101000000".data "web1".data
      rfl rfl rfl⟩

lemma processVM_countP_globalPrune (w : World) (ts vm : Str) :
    (processVM w ts vm).countP evIsGlobalPrune = 0 := by
  unfold processVM
  split
  · simp [List.countP_cons, evIsGlobalPrune]
  · split <;> simp [List.countP_cons, evIsGlobalPrune]

lemma processVM_head (w : World) (ts vm : Str) :
    ∃ dl rest, processVM w ts vm = Ev.pruneSnaps vm dl :: rest := by
  unfold processVM
  split
  · exact ⟨_, _, rfl⟩
  · split
    · exact ⟨_, _, rfl⟩
    · exact ⟨_, _, rfl⟩

lemma flatMap_countP_zero (l : List Str) (g : Str → List Ev) (p : Ev → Bool)
    (h : ∀ x, (g x).countP p = 0) : (l.flatMap g).countP p = 0 := by
  induction l with
  | nil => simp
  | cons a t ih => simp [List.flatMap_cons, List.countP_append, h a, ih]

/-- C8: in every run that passes directory preparation and discovers at
least one instance, each instance is processed (its prune step appears in
the trace) regardless of per-instance outcomes, and the global archive
pruner runs exactly once, as the final step of the run. -/
theorem spec_c8_orchestrator (w : World) (h1 : w.dirOk = true)
    (h2 : w.vms ≠ []) :
    (main_run w).countP evIsGlobalPrune = 1 ∧
    (∃ l, main_run w = l ++
        [Ev.globalPrune (prune_old_backups w.backupListing w.removeOk
          (toMicro w.lnow) BACKUP_RETENTION_DAYS).report] ∧
      l.countP evIsGlobalPrune = 0) ∧
    (∀ vm ∈ w.vms, (main_run w).any (evIsPruneFor vm) = true) := by
  have hempty : w.vms.isEmpty = false := by
    cases hv : w.vms with
    | nil => exact absurd hv h2
    | cons a b => rfl
  have hzero : (w.vms.flatMap (processVM w (format14 w.lnow))).countP
      evIsGlobalPrune = 0 :=
    flatMap_countP_zero _ _ _ (fun x => processVM_countP_globalPrune w _ x)
  have hmain : main_run w = (w.vms.flatMap (processVM w (format14 w.lnow))) ++
      [Ev.globalPrune (prune_old_backups w.backupListing w.removeOk
        (toMicro w.lnow) BACKUP_RETENTION_DAYS).report] := by
    unfold main_run
    simp [h1, hempty]
  refine ⟨?_, ⟨_, hmain, hzero⟩, ?_⟩
  · rw [hmain]
    simp [List.countP_append, hzero, List.countP_cons, evIsGlobalPrune]
  · intro vm hvm
    obtain ⟨dl, rest, hp⟩ := processVM_head w (format14 w.lnow) vm
    have hmem : Ev.pruneSnaps vm dl ∈ main_run w := by
      rw [hmain]
      refine List.mem_append_left _ ?_
      refine List.mem_flatMap.mpr ⟨vm, hvm, ?_⟩
      rw [hp]
      exact List.mem_cons_self _ _
    refine List.any_eq_true.mpr ⟨Ev.pruneSnaps vm dl, hmem, ?_⟩
    simp [evIsPruneFor]

/-- Witness for C8 in `exWorld`: both instances are processed and the global
prune runs exactly once at the end. -/
theorem spec_c8_orchestrator_witness :
    (exWorld.dirOk = true ∧ exWorld.vms ≠ []) ∧
    ((main_run exWorld).countP evIsGlobalPrune = 1 ∧
      (∃ l, main_run exWorld = l ++
          [Ev.globalPrune (prune_old_backups exWorld.backupListing exWorld.removeOk
            (toMicro exWorld.lnow) BACKUP_RETENTION_DAYS).report] ∧
        l.countP evIsGlobalPrune = 0) ∧
      (∀ vm ∈ exWorld.vms, (main_run exWorld).any (evIsPruneFor vm) = true)) :=
  ⟨⟨rfl, by decide⟩, spec_c8_orchestrator exWorld rfl (by decide)⟩

/-- C9 (spec-modelled: volume discovery is described only in §4.2 of the
spec; no volume code exists under src/): a volume whose project differs from
the configured project, or whose content type is not `block` (or whose type
is not `custom`), never appears in any instance's volume-export list — every
selected volume passes the full filter. -/
theorem spec_c9_volume_filter (cfgProject : Str) (vols : List Volume)
    (inst : Str) (v : Volume) (hv : v ∈ selectedVolumes cfgProject vols inst) :
    v.project = cfgProject ∧ v.vtype = "custom".data ∧
    v.content_type = "block".data := by
  unfold selectedVolumes at hv
  have h0 : v ∈ vols.filter (volumeFilter cfgProject) :=
    List.mem_of_mem_filter hv
  have h2 := List.of_mem_filter h0
  simp only [volumeFilter, Bool.and_eq_true, decide_eq_true_eq] at h2
  exact ⟨h2.1.1, h2.1.2, h2.2⟩

/-- Witness for C9: of three volumes (wrong project, wrong content type, and
one conforming), only the conforming one is selected, and the theorem
recovers its attributes. -/
theorem spec_c9_volume_filter_witness :
    ((⟨"vol1".data, "default".data, "custom".data, "block".data,
        [ "/1.0/instances/web1".data ]⟩ : Volume) ∈
      selectedVolumes "default".data
        [⟨"vol1".data, "default".data, "custom".data, "block".data,
            [ "/1.0/instances/web1".data ]⟩,
          ⟨"vol2".data, "other".data, "custom".data, "block".data,
            [ "/1.0/instances/web1".data ]⟩,
          ⟨"vol3".data, "default".data, "custom".data, "iso".data,
            [ "/1.0/instances/web1".data ]⟩] "web1".data) ∧
    ((⟨"vol1".data, "default".data, "custom".data, "block".data,
        [ "/1.0/instances/web1".data ]⟩ : Volume).project = "default".data ∧
      (⟨"vol1".data, "default".data, "custom".data, "block".data,
        [ "/1.0/instances/web1".data ]⟩ : Volume).vtype = "custom".data ∧
      (⟨"vol1".data, "default".data, "custom".data, "block".data,
        [ "/1.0/instances/web1".data ]⟩ : Volume).content_type = "block".data) :=
  ⟨by decide,
    spec_c9_volume_filter "default".data
      [⟨"vol1".data, "default".data, "custom".data, "block".data,
          [ "/1.0/instances/web1".data ]⟩,
        ⟨"vol2".data, "other".data, "custom".data, "block".data,
          [ "/1.0/instances/web1".data ]⟩,
        ⟨"vol3".data, "default".data, "custom".data, "iso".data,
          [ "/1.0/instances/web1".data ]⟩] "web1".data
      ⟨"vol1".data, "default".data, "custom".data, "block".data,
        [ "/1.0/instances/web1".data ]⟩ (by decide)⟩

/-- C10: snapshot pruning and archive pruning measure age against different
clocks.  The snapshot cutoff is taken from `datetime.utcnow()` while the
archive cutoff and the run timestamp embedded in archive filenames both come
from the local `datetime.now()`: with the local clock offset from UTC by
`offMicro`, same-length retention windows are offset by exactly `offMicro`
(conjunct 1); the run trace shows the archive pruner keyed to `lnow` and the
per-instance snapshot prune keyed to `utcnow` (conjuncts 2 and 3); and
archive filenames and the archive cutoff remain mutually consistent: a file
named from local time `t0` is pruned against local time `t1` exactly when
`t0` is older than the local cutoff (conjunct 4). -/
theorem spec_c10_clocks :
    (∀ utcMicro offMicro days : Int,
      backupCutoff (utcMicro + offMicro) days - snapshotCutoff utcMicro days =
        offMicro) ∧
    (∀ (w : World) (vm : Str), w.dirOk = true → w.vms = [vm] →
      main_run w = processVM w (format14 w.lnow) vm ++
        [Ev.globalPrune (prune_old_backups w.backupListing w.removeOk
          (toMicro w.lnow) BACKUP_RETENTION_DAYS).report]) ∧
    (∀ (w : World) (ts vm : Str),
      (processVM w ts vm).head? = some (Ev.pruneSnaps vm
        (prune_old_snapshots (w.snapListing vm) (toMicro w.utcnow)
          RETENTION_DAYS))) ∧
    (∀ (vm : Str) (t0 t1 : DT) (days : Int), validDT t0 = true →
      1000 ≤ t0.year → t0.micro = 0 →
      pruneBackupsLoop (fun _ => true) (backupCutoff (toMicro t1) days)
          [archiveFileName vm (format14 t0)] =
        (if toMicro t0 < backupCutoff (toMicro t1) days
          then ([archiveFileName vm (format14 t0)], 1, 0) else ([], 0, 0))) := by
  refine ⟨?_, ?_, ?_, ?_⟩
  · intro utcMicro offMicro days
    simp [backupCutoff, snapshotCutoff]
  · intro w vm h1 hvms
    have hempty : w.vms.isEmpty = false := by rw [hvms]; rfl
    unfold main_run
    simp [h1, hempty, hvms]
  · intro w ts vm
    unfold processVM
    split
    · rfl
    · split <;> rfl
  · intro vm t0 t1 days hv hy hm
    have htok := backupToken_archive vm (format14 t0) (format14_all_isD t0)
    have hend := archive_endswith vm (format14 t0)
    have hparse := strptimeCompact_format14 t0 hv
    have ht0 : (⟨t0.year, t0.month, t0.day, t0.hour, t0.minute, t0.second, 0⟩ : DT)
        = t0 := by
      cases t0
      simp only at hm
      simp [hm]
    rw [ht0] at hparse
    simp only [pruneBackupsLoop, hend, htok, hparse]
    by_cases hlt : toMicro t0 < backupCutoff (toMicro t1) days
    · simp [hlt, pruneBackupsLoop]
    · simp [hlt, pruneBackupsLoop]

/-- Witness for C10, applying the filename/cutoff consistency conjunct: an
archive named from local time 2024-01-01 00:00:00 is pruned at local time
2024-03-01 with a 14-day window. -/
theorem spec_c10_clocks_witness :
    (validDT ⟨2024, 1, 1, 0, 0, 0, 0⟩ = true ∧
      1000 ≤ (⟨2024, 1, 1, 0, 0, 0, 0⟩ : DT).year ∧
      (⟨2024, 1, 1, 0, 0, 0, 0⟩ : DT).micro = 0) ∧
    pruneBackupsLoop (fun _ => true)
        (backupCutoff (toMicro ⟨2024, 3, 1, 0, 0, 0, 0⟩) 14)
        [archiveFileName "web1".data (format14 ⟨2024, 1, 1, 0, 0, 0, 0⟩)] =
      (if toMicro ⟨2024, 1, 1, 0, 0, 0, 0⟩ <
          backupCutoff (toMicro ⟨2024, 3, 1, 0, 0, 0, 0⟩) 14
        then ([archiveFileName "web1".data (format14 ⟨2024, 1, 1, 0, 0, 0, 0⟩)], 1, 0)
        else ([], 0, 0)) :=
  ⟨⟨by decide, by decide, by decide⟩,
    spec_c10_clocks.2.2.2 "web1".data ⟨2024, 1, 1, 0, 0, 0, 0⟩
      ⟨2024, 3, 1, 0, 0, 0, 0⟩ 14 (by decide) (by decide) (by decide)⟩
